import Mathlib

/-!
Verification of the go-ast-bridge telephony bridge (src/main.go, src/chat.go).

The Go source is shallowly embedded: pure helpers become Lean functions over
`List ℕ` (bytes) and `ℚ` (audio samples; the program's float32/float64
arithmetic on these values — int16 scaling by 1/32768 and sample-count
division — is exact or order-preserving at every comparison the code makes,
so rationals model it faithfully); the per-call read loop `Handle` becomes a
step function over an explicit session state driven by a list of decoded
frames plus per-frame oracle results for the external collaborators (VAD,
transcription, persistence, LLM); the playback-relay machinery
(`websocketSendReceive`, the global `wsCancel`, `AudioWriter`) becomes a
small interleaving transition system whose schedules model goroutine
scheduling.
-/

namespace Bridge

/-- Two little-endian bytes decoded as a signed 16-bit integer, as Go's
`binary.Read(buf, binary.LittleEndian, &sample)` does in `pcmToFloat32Array`. -/
def toInt16 (v : ℕ) : ℤ :=
  if v < 32768 then (v : ℤ) else (v : ℤ) - 65536

/-- The sample loop of `pcmToFloat32Array` (src/main.go): consume two bytes at a
time, decode an int16 little-endian sample and scale by 1/32768.  `float32`
division of an int16 value by 2^15 is exact, so samples are rationals. -/
def pcmSamples : List ℕ → List ℚ
  | b0 :: b1 :: rest => ((toInt16 (b0 + 256 * b1) : ℚ) / 32768) :: pcmSamples rest
  | _ => []

/-- Function `pcmToFloat32Array` from src/main.go: reject odd-length input, otherwise
decode consecutive int16 little-endian samples scaled by 1/32768. -/
def pcmToFloat32Array (pcmData : List ℕ) : Except String (List ℚ) :=
  if pcmData.length % 2 ≠ 0 then Except.error "pcm data length must be even"
  else Except.ok (pcmSamples pcmData)

/-- Structure `STTSettings` from src/chat.go (Language is a plain string, the remaining
fields are nullable pointers). -/
structure STTSettings where
  language : String
  beamSize : Option ℤ
  bestOf : Option ℤ
  patience : Option ℚ
  noSpeechThreshold : Option ℤ
  temperature : Option ℚ
  hallucinationSilenceThreshold : Option ℤ
deriving DecidableEq

/-- Structure `LLMSettings` from src/chat.go. -/
structure LLMSettings where
  model : String
  seed : Option ℤ
  systemPrompt : Option String
  mirostat : Option ℤ
  mirostatEta : Option ℚ
  mirostatTau : Option ℚ
  numCtx : Option ℤ
  repeatLastN : Option ℤ
  repeatPenalty : Option ℚ
  temperature : Option ℚ
  tfsZ : Option ℚ
  numPredict : Option ℤ
  topK : Option ℤ
  topP : Option ℚ
  minP : Option ℚ
deriving DecidableEq

/-- The `ollama.Options` fields populated by `handleInputAudio` (src/main.go). -/
structure OllamaOptions where
  seed : Option ℤ
  mirostat : Option ℤ
  mirostatEta : Option ℚ
  mirostatTau : Option ℚ
  numCtx : Option ℤ
  repeatLastN : Option ℤ
  repeatPenalty : Option ℚ
  tfsZ : Option ℚ
  temperature : Option ℚ
  numPredict : Option ℤ
deriving DecidableEq

/-- Function `calculateAudioLength` from src/main.go: total samples over the given
sample rate.  The Go float64 comparison `length < 0.40` agrees with the exact
rational comparison (the quotient and the literal round to the same side of
every representable boundary at the inputs the program forms), so the length
is modelled as a rational. -/
def calculateAudioLength (inputAudioBuffer : List (List ℚ)) (sampleRate : ℕ) : ℚ :=
  let totalSamples := (inputAudioBuffer.map List.length).sum
  (totalSamples : ℚ) / (sampleRate : ℚ)

/-- Denylist `excludedWords` from `handleInputAudio` (src/main.go). -/
def excludedWords : List String :=
  ["Продолжение следует...", "Субтитры сделал DimaTorzok", "Субтитры создавал DimaTorzok"]

deriving instance DecidableEq for Except

/-- Results of the external calls `handleInputAudio` makes, in program order:
the transcription POST, the user-message append, the ollama chat call, the
assistant-message append.  Each is an oracle for one request/response
exchange with a collaborator service. -/
structure UttOracle where
  transcription : Except String String
  sendUserMessage : Except String Unit
  chatReply : Except String String
  sendAssistantMessage : Except String Unit
deriving DecidableEq

/-- Observable actions of `handleInputAudio`, in the order the code performs
them. -/
inductive UttEffect
  | logSkipShort
  | submitTranscription (audio : List ℚ) (settings : STTSettings)
  | logTranscribeError
  | logExcluded
  | sendMessage (chatID role content : String)
  | logSendUserError
  | llmChat (chatID model message : String) (options : OllamaOptions)
  | logLlmError
  | logSendAssistantError
  | startPlaybackRelay (message language : String) (speed awaitTime : ℚ)
deriving DecidableEq

/-- Function `handleInputAudio` from src/main.go as an effect trace.  The settings
structs are received by value (Go copies them at the call), so the function
cannot alter the caller's settings; the `Language` override mutates only the
local copy that is serialized into the transcription request. -/
def handleInputAudio (buffer : List (List ℚ)) (chatID : String)
    (sttSettings : STTSettings) (llmSettings : LLMSettings) (o : UttOracle) :
    List UttEffect :=
  let mergedBuffer := buffer.flatten
  let length := calculateAudioLength buffer 16000
  if length < 2/5 then
    [UttEffect.logSkipShort]
  else
    let stt2 : STTSettings := { sttSettings with language := "ru" }
    UttEffect.submitTranscription mergedBuffer stt2 ::
    match o.transcription with
    | Except.error _ => [UttEffect.logTranscribeError]
    | Except.ok transcription =>
      let llmOptions : OllamaOptions :=
        { seed := llmSettings.seed
          mirostat := llmSettings.mirostat
          mirostatEta := llmSettings.mirostatEta
          mirostatTau := llmSettings.mirostatTau
          numCtx := llmSettings.numCtx
          repeatLastN := llmSettings.repeatLastN
          repeatPenalty := llmSettings.repeatPenalty
          tfsZ := llmSettings.tfsZ
          temperature := llmSettings.temperature
          numPredict := llmSettings.numPredict }
      if transcription ∈ excludedWords then
        [UttEffect.logExcluded]
      else
        UttEffect.sendMessage chatID "user" transcription ::
        match o.sendUserMessage with
        | Except.error _ => [UttEffect.logSendUserError]
        | Except.ok _ =>
          UttEffect.llmChat chatID "gemma2:9b" transcription llmOptions ::
          match o.chatReply with
          | Except.error _ => [UttEffect.logLlmError]
          | Except.ok reply =>
            UttEffect.sendMessage chatID "assistant" reply ::
            match o.sendAssistantMessage with
            | Except.error _ => [UttEffect.logSendAssistantError]
            | Except.ok _ => [UttEffect.startPlaybackRelay reply "ru" 1 (15/1000)]

/-- AudioSocket message kinds used by `Handle` (src/main.go). -/
inductive MsgKind
  | kindHangup
  | kindID
  | kindSlin
  | kindError
deriving DecidableEq

/-- One decoded AudioSocket message: kind plus raw payload bytes. -/
structure Msg where
  kind : MsgKind
  payload : List ℕ
deriving DecidableEq

/-- Outcome of `vad.Process(rate, audioData)` for one frame: speech, silence,
or a classification error (the external detector is an oracle). -/
inductive VadResult
  | speech
  | silence
  | vadFailure
deriving DecidableEq

/-- One read-loop iteration's input: the decoded message, the VAD verdict for
its payload, and the collaborator responses `handleInputAudio` would receive
if an utterance closes on this frame. -/
structure InEvent where
  msg : Msg
  vad : VadResult
  oracle : UttOracle
deriving DecidableEq

/-- The mutable per-session state of `Handle`'s read loop (src/main.go):
the accumulated speech buffer, the consecutive-silence counter, and the
settings snapshot fetched once at session start. -/
structure SessState where
  inputAudioBuffer : List (List ℚ)
  silenceCount : ℕ
  sttSettings : STTSettings
  llmSettings : LLMSettings
  chatID : String
deriving DecidableEq

/-- Observable actions of the read loop. `processUtterance` records an
invocation of `handleInputAudio` together with the buffer handed over and the
effect trace that invocation produced. -/
inductive Effect
  | logHangup
  | logSocketError
  | logNoAudio
  | logPcmError (e : String)
  | logVadError
  | processUtterance (buffer : List (List ℚ)) (sub : List UttEffect)
deriving DecidableEq

/-- Constant `silenceThreshold` from `Handle` (src/main.go). -/
def silenceThreshold : ℕ := 5

/-- One iteration of `Handle`'s read loop (src/main.go, `for ctx.Err() == nil`
body): dispatch on the message kind; audio frames are skipped when empty or
when PCM conversion fails, appended to the buffer on speech, and counted on
silence, closing the utterance once the counter exceeds the threshold with a
non-empty buffer (the counter itself is not reset).  Returns the new state,
the effects of the iteration, and whether the loop returns (hangup). -/
def handleStep (st : SessState) (ev : InEvent) : SessState × List Effect × Bool :=
  match ev.msg.kind with
  | MsgKind.kindHangup => (st, [Effect.logHangup], true)
  | MsgKind.kindError => (st, [Effect.logSocketError], false)
  | MsgKind.kindID => (st, [], false)
  | MsgKind.kindSlin =>
    if ev.msg.payload.length < 1 then
      (st, [Effect.logNoAudio], false)
    else
      match pcmToFloat32Array ev.msg.payload with
      | Except.error e => (st, [Effect.logPcmError e], false)
      | Except.ok floatArray =>
        match ev.vad with
        | VadResult.vadFailure => (st, [Effect.logVadError], false)
        | VadResult.speech =>
          ({ st with inputAudioBuffer := st.inputAudioBuffer ++ [floatArray]
                     silenceCount := 0 }, [], false)
        | VadResult.silence =>
          let sc := st.silenceCount + 1
          if sc > silenceThreshold ∧ st.inputAudioBuffer ≠ [] then
            ({ st with inputAudioBuffer := []
                       silenceCount := sc },
             [Effect.processUtterance st.inputAudioBuffer
                (handleInputAudio st.inputAudioBuffer st.chatID st.sttSettings
                  st.llmSettings ev.oracle)], false)
          else
            ({ st with silenceCount := sc }, [], false)

/-- The `Handle` read loop run over a list of incoming frames, stopping early
when an iteration returns (hangup); yields the final state, the concatenated
effects, and whether the loop stopped before exhausting the input. -/
def runHandle : SessState → List InEvent → SessState × List Effect × Bool
  | st, [] => (st, [], false)
  | st, ev :: rest =>
    match handleStep st ev with
    | (st2, effs, true) => (st2, effs, true)
    | (st2, effs, false) =>
      let r := runHandle st2 rest
      (r.1, effs ++ r.2.1, r.2.2)

/-- The process-wide relay supersession state of src/main.go: the package-level
`wsCancel` handle (here: the id of the relay whose cancel function is
installed) together with the set of relay contexts that have been cancelled. -/
structure RelayMgr where
  wsCancel : Option ℕ
  cancelled : List ℕ
deriving DecidableEq

/-- Control location of one relay goroutine inside `websocketSendReceive`'s
`for`/`select` loop: about to run the top-of-loop cancellation check (which,
when the context is live, reads the next WebSocket message), or holding a
binary chunk it is about to write to the call connection, or returned. -/
inductive RLoc
  | checkCancel
  | writeChunk
  | finished
deriving DecidableEq

/-- One spawned relay goroutine: its id, the call connection it writes to
(each relay wraps the connection in its own fresh `AudioWriter`), its control
location, the binary chunks the synthesis stream will still deliver, and the
chunk read but not yet written. -/
structure RelayTask where
  rid : ℕ
  connId : ℕ
  loc : RLoc
  pending : List ℕ
  current : ℕ
deriving DecidableEq

/-- The whole relay subsystem: the global manager state, the spawned tasks,
and the ordered trace of audio frames written to call connections
(connection id, writing relay id, chunk). -/
structure RelaySys where
  mgr : RelayMgr
  tasks : List RelayTask
  connTrace : List (ℕ × ℕ × ℕ)
deriving DecidableEq

/-- The synchronized prefix of `websocketSendReceive` (src/main.go): under
`wsMutex`, cancel the previously installed relay (whichever call it belongs
to — `wsCancel` is process-wide) and install the new relay's cancel handle;
then spawn the relay goroutine. -/
def startRelay (s : RelaySys) (rid connId : ℕ) (chunks : List ℕ) : RelaySys :=
  { mgr := { wsCancel := some rid
             cancelled := match s.mgr.wsCancel with
               | some old => s.mgr.cancelled ++ [old]
               | none => s.mgr.cancelled }
    tasks := s.tasks ++ [⟨rid, connId, RLoc.checkCancel, chunks, 0⟩]
    connTrace := s.connTrace }

/-- One atomic step of a relay goroutine.  At `checkCancel` the goroutine runs
the `select`: if its context is done it returns (the deferred cleanup sets the
global `wsCancel` to nil unconditionally); otherwise it reads the next
WebSocket message — end of stream makes it return, a binary chunk moves it to
the write.  At `writeChunk` it writes the held chunk to the call connection
through its own `AudioWriter` with no further cancellation check. -/
def stepTask (m : RelayMgr) (t : RelayTask) (trace : List (ℕ × ℕ × ℕ)) :
    RelayMgr × RelayTask × List (ℕ × ℕ × ℕ) :=
  match t.loc with
  | RLoc.checkCancel =>
    if t.rid ∈ m.cancelled then
      ({ m with wsCancel := none }, { t with loc := RLoc.finished }, trace)
    else
      match t.pending with
      | [] => ({ m with wsCancel := none }, { t with loc := RLoc.finished }, trace)
      | c :: rest =>
        (m, { t with loc := RLoc.writeChunk, pending := rest, current := c }, trace)
  | RLoc.writeChunk =>
    (m, { t with loc := RLoc.checkCancel }, trace ++ [(t.connId, t.rid, t.current)])
  | RLoc.finished => (m, t, trace)

/-- A scheduler action: the session read loop invokes `websocketSendReceive`
(installing and spawning a new relay), or the scheduler runs one step of the
relay goroutine with the given id. -/
inductive RAction
  | start (rid connId : ℕ) (chunks : List ℕ)
  | runTask (rid : ℕ)
deriving DecidableEq

/-- Apply one scheduler action to the relay subsystem. -/
def sysStep (s : RelaySys) : RAction → RelaySys
  | RAction.start rid connId chunks => startRelay s rid connId chunks
  | RAction.runTask rid =>
    match s.tasks.find? (fun t => t.rid == rid) with
    | none => s
    | some t =>
      let r := stepTask s.mgr t s.connTrace
      { mgr := r.1
        tasks := s.tasks.map (fun u => if u.rid == rid then r.2.1 else u)
        connTrace := r.2.2 }

/-- Run a schedule of actions from a given system state. -/
def runSys : RelaySys → List RAction → RelaySys
  | s, [] => s
  | s, a :: rest => runSys (sysStep s a) rest

/-- The relay subsystem at process start: no cancel handle installed, no
tasks, nothing written. -/
def initSys : RelaySys := ⟨⟨none, []⟩, [], []⟩

/-- A concrete STT settings snapshot used to instantiate theorems. -/
def sttExample : STTSettings := ⟨"en", none, none, none, none, none, none⟩

/-- A concrete LLM settings snapshot used to instantiate theorems. -/
def llmExample : LLMSettings :=
  ⟨"gemma2:9b", none, none, none, none, none, none, none, none, none, none,
   none, none, none, none⟩

/-- A collaborator oracle on which every external call fails. -/
def defaultOracle : UttOracle :=
  ⟨Except.error "conn", Except.error "conn", Except.error "conn", Except.error "conn"⟩

/-- A collaborator oracle on which every external call succeeds. -/
def okOracle : UttOracle := ⟨Except.ok "hello", Except.ok (), Except.ok "hi there", Except.ok ()⟩

/-- Session state right after `Handle`'s preamble: empty buffer, zero silence
counter, the fetched settings snapshot. -/
def initState (stt : STTSettings) (llm : LLMSettings) (cid : String) : SessState :=
  ⟨[], 0, stt, llm, cid⟩

/-- An audio (`KindSlin`) frame event. -/
def slinEvent (payload : List ℕ) (v : VadResult) (o : UttOracle) : InEvent :=
  ⟨⟨MsgKind.kindSlin, payload⟩, v, o⟩

/-- A hangup frame event (empty payload; the VAD and oracle fields are
irrelevant to a hangup frame). -/
def hangupEvent (o : UttOracle) : InEvent :=
  ⟨⟨MsgKind.kindHangup, []⟩, VadResult.silence, o⟩

/-- A collaborator oracle whose transcription result is a denylisted caption. -/
def denyOracle : UttOracle :=
  ⟨Except.ok "Продолжение следует...", Except.ok (), Except.ok "reply", Except.ok ()⟩

/-- One speech frame followed by exactly five consecutive silence frames. -/
def c1Events5 : List InEvent :=
  slinEvent [0, 1] VadResult.speech defaultOracle ::
    List.replicate 5 (slinEvent [0, 1] VadResult.silence defaultOracle)

/-- One speech frame followed by six consecutive silence frames (enough for
the read loop to close the utterance). -/
def c9Events : List InEvent :=
  slinEvent [0, 1] VadResult.speech defaultOracle ::
    List.replicate 6 (slinEvent [0, 1] VadResult.silence defaultOracle)

/-- Schedule refuting C2: relay 0 for connection 7 reads chunk 10, writes it,
reads chunk 11; the session then starts relay 1 for the same connection
(superseding relay 0); relay 1 reads and writes chunk 20; then relay 0 —
already cancelled, but past its top-of-loop check — writes chunk 11. -/
def c2Schedule : List RAction :=
  [RAction.start 0 7 [10, 11], RAction.runTask 0, RAction.runTask 0,
   RAction.runTask 0, RAction.start 1 7 [20], RAction.runTask 1,
   RAction.runTask 1, RAction.runTask 0]

/-- An utterance of 25 audio chunks of 160 samples each: 4000 samples, which
is 0.5 s of the call's 8 kHz stream. -/
def c4Buffer : List (List ℚ) := List.replicate 25 (List.replicate 160 0)

/-- Indexed characterization of the `pcmToFloat32Array` sample loop: on a list
of `2 * n` bytes it yields `n` samples and the `i`-th sample is the `i`-th
little-endian int16 scaled by 1/32768. -/
theorem pcmSamples_spec (n : ℕ) : ∀ l : List ℕ, l.length = 2 * n →
    (pcmSamples l).length = n ∧
    ∀ i, i < n → (pcmSamples l)[i]? =
      some ((toInt16 (l.getD (2 * i) 0 + 256 * l.getD (2 * i + 1) 0) : ℚ) / 32768) := by
  induction n with
  | zero =>
    intro l h
    have hl : l = [] := List.length_eq_zero.mp (by omega)
    subst hl
    exact ⟨rfl, fun i hi => absurd hi (by omega)⟩
  | succ n ih =>
    intro l h
    match l with
    | [] => simp at h
    | [b] => simp at h; omega
    | b0 :: b1 :: rest =>
      have hr : rest.length = 2 * n := by
        simp only [List.length_cons] at h
        omega
      obtain ⟨hlen, hget⟩ := ih rest hr
      refine ⟨by simp [pcmSamples, hlen], ?_⟩
      intro i hi
      cases i with
      | zero => simp [pcmSamples]
      | succ j =>
        have hj : j < n := by omega
        have e1 : 2 * (j + 1) = 2 * j + 1 + 1 := by ring
        have e2 : 2 * (j + 1) + 1 = 2 * j + 1 + 1 + 1 := by ring
        simp only [pcmSamples, List.getElem?_cons_succ, e1, e2, List.getD_cons_succ]
        exact hget j hj

/-- A nonempty even-length audio payload classified as speech is appended to
the utterance buffer and resets the silence counter. -/
theorem handleStep_speech (st : SessState) (p : List ℕ) (o : UttOracle)
    (hp : p ≠ []) (he : p.length % 2 = 0) :
    handleStep st (slinEvent p VadResult.speech o) =
      ({ st with inputAudioBuffer := st.inputAudioBuffer ++ [pcmSamples p]
                 silenceCount := 0 }, [], false) := by
  have hlen : ¬ p.length < 1 := by
    cases p with
    | nil => exact absurd rfl hp
    | cons a as => simp
  have hpcm : pcmToFloat32Array p = Except.ok (pcmSamples p) := by
    unfold pcmToFloat32Array
    rw [if_neg (by omega)]
  simp [handleStep, slinEvent, hlen, hpcm]

/-- A nonempty even-length silence frame that does not reach the close
condition merely increments the silence counter. -/
theorem handleStep_silence_open (st : SessState) (p : List ℕ) (o : UttOracle)
    (hp : p ≠ []) (he : p.length % 2 = 0)
    (hcond : ¬(st.silenceCount + 1 > silenceThreshold ∧ st.inputAudioBuffer ≠ [])) :
    handleStep st (slinEvent p VadResult.silence o) =
      ({ st with silenceCount := st.silenceCount + 1 }, [], false) := by
  have hlen : ¬ p.length < 1 := by
    cases p with
    | nil => exact absurd rfl hp
    | cons a as => simp
  have hpcm : pcmToFloat32Array p = Except.ok (pcmSamples p) := by
    unfold pcmToFloat32Array
    rw [if_neg (by omega)]
  simp only [handleStep, slinEvent, hpcm, if_neg hlen, if_neg hcond]

/-- A silence frame that pushes the counter over the threshold with a
non-empty buffer hands the buffer to `handleInputAudio` and clears it (the
counter is not reset). -/
theorem handleStep_silence_close (st : SessState) (p : List ℕ) (o : UttOracle)
    (hp : p ≠ []) (he : p.length % 2 = 0)
    (hc : st.silenceCount + 1 > silenceThreshold) (hb : st.inputAudioBuffer ≠ []) :
    handleStep st (slinEvent p VadResult.silence o) =
      ({ st with inputAudioBuffer := []
                 silenceCount := st.silenceCount + 1 },
       [Effect.processUtterance st.inputAudioBuffer
          (handleInputAudio st.inputAudioBuffer st.chatID st.sttSettings
            st.llmSettings o)], false) := by
  have hlen : ¬ p.length < 1 := by
    cases p with
    | nil => exact absurd rfl hp
    | cons a as => simp
  have hpcm : pcmToFloat32Array p = Except.ok (pcmSamples p) := by
    unfold pcmToFloat32Array
    rw [if_neg (by omega)]
  simp only [handleStep, slinEvent, hpcm, if_neg hlen, if_pos (And.intro hc hb)]

/-- Only a hangup frame makes a read-loop iteration return. -/
theorem handleStep_stopped (st : SessState) (ev : InEvent)
    (h : ev.msg.kind ≠ MsgKind.kindHangup) : (handleStep st ev).2.2 = false := by
  rcases ev with ⟨⟨k, pay⟩, v, o⟩
  cases k with
  | kindHangup => exact absurd rfl h
  | kindID => rfl
  | kindError => rfl
  | kindSlin =>
    simp only [handleStep]
    split
    · rfl
    · split
      · rfl
      · rcases v with _ | _ | _
        · rfl
        · simp only []
          split
          · rfl
          · rfl
        · rfl

/-- A read-loop iteration never touches the settings snapshot or the chat
identifier held in the session state. -/
theorem handleStep_preserves (st : SessState) (ev : InEvent) :
    (handleStep st ev).1.sttSettings = st.sttSettings ∧
    (handleStep st ev).1.llmSettings = st.llmSettings ∧
    (handleStep st ev).1.chatID = st.chatID := by
  rcases ev with ⟨⟨k, pay⟩, v, o⟩
  cases k with
  | kindHangup => exact ⟨rfl, rfl, rfl⟩
  | kindID => exact ⟨rfl, rfl, rfl⟩
  | kindError => exact ⟨rfl, rfl, rfl⟩
  | kindSlin =>
    simp only [handleStep]
    split
    · exact ⟨rfl, rfl, rfl⟩
    · split
      · exact ⟨rfl, rfl, rfl⟩
      · rcases v with _ | _ | _
        · exact ⟨rfl, rfl, rfl⟩
        · simp only []
          split
          · exact ⟨rfl, rfl, rfl⟩
          · exact ⟨rfl, rfl, rfl⟩
        · exact ⟨rfl, rfl, rfl⟩

/-- Any utterance-processing effect emitted by a read-loop iteration carries
the trace of `handleInputAudio` applied to the handed-over buffer, the
session's chat id, and the session's settings snapshot, with the iteration's
collaborator oracle. -/
theorem handleStep_utterance (st : SessState) (ev : InEvent) (b : List (List ℚ))
    (sub : List UttEffect)
    (h : Effect.processUtterance b sub ∈ (handleStep st ev).2.1) :
    sub = handleInputAudio b st.chatID st.sttSettings st.llmSettings ev.oracle := by
  rcases ev with ⟨⟨k, pay⟩, v, o⟩
  cases k with
  | kindHangup => simp [handleStep] at h
  | kindID => simp [handleStep] at h
  | kindError => simp [handleStep] at h
  | kindSlin =>
    simp only [handleStep] at h
    split at h
    · simp at h
    · split at h
      · simp at h
      · rcases v with _ | _ | _
        · simp at h
        · simp only [] at h
          split at h
          · simp at h
            rw [h.2, h.1]
          · simp at h
        · simp at h

/-- Splitting a read-loop run at a list append: when the first part does not
hang up, the run continues from its final state; when it does, the rest of
the input is never read. -/
theorem runHandle_append (st : SessState) (l1 l2 : List InEvent) :
    runHandle st (l1 ++ l2) =
      if (runHandle st l1).2.2 then runHandle st l1
      else ((runHandle (runHandle st l1).1 l2).1,
            (runHandle st l1).2.1 ++ (runHandle (runHandle st l1).1 l2).2.1,
            (runHandle (runHandle st l1).1 l2).2.2) := by
  induction l1 generalizing st with
  | nil => simp [runHandle]
  | cons ev rest ih =>
    simp only [List.cons_append, runHandle]
    cases hh : handleStep st ev with
    | mk st2 r =>
      cases r with
      | mk effs stop =>
        cases stop with
        | true => simp
        | false =>
          simp only [List.append_eq]
          rw [ih st2]
          by_cases hs : (runHandle st2 rest).2.2
          · simp [hs]
          · simp [hs, List.append_assoc]

/-- Running the read loop over speech-classified valid frames appends their
converted samples to the buffer in order and, when at least one frame was
seen, leaves the silence counter at zero; no effects are emitted and the loop
keeps reading. -/
theorem runHandle_speech (payloads : List (List ℕ)) (st : SessState) (o : UttOracle)
    (hval : ∀ p ∈ payloads, p ≠ [] ∧ p.length % 2 = 0) :
    runHandle st (payloads.map (fun p => slinEvent p VadResult.speech o)) =
      (⟨st.inputAudioBuffer ++ payloads.map pcmSamples,
        if payloads = [] then st.silenceCount else 0,
        st.sttSettings, st.llmSettings, st.chatID⟩, [], false) := by
  induction payloads generalizing st with
  | nil =>
    obtain ⟨b, sc, s1, s2, cid⟩ := st
    simp [runHandle]
  | cons p ps ih =>
    obtain ⟨hp, he⟩ := hval p (List.mem_cons_self p ps)
    simp only [List.map_cons, runHandle,
      handleStep_speech st p o hp he]
    rw [ih _ (fun q hq => hval q (List.mem_cons_of_mem p hq))]
    simp [List.append_assoc]

/-- Running at most enough silence frames to stay at or under the threshold
only advances the silence counter; nothing is emitted or closed. -/
theorem runHandle_silence_under (k : ℕ) : ∀ (st : SessState) (p : List ℕ)
    (o : UttOracle), p ≠ [] → p.length % 2 = 0 →
    st.silenceCount + k ≤ silenceThreshold →
    runHandle st (List.replicate k (slinEvent p VadResult.silence o)) =
      ({ st with silenceCount := st.silenceCount + k }, [], false) := by
  induction k with
  | zero =>
    intro st p o hp he hb
    obtain ⟨b, sc, s1, s2, cid⟩ := st
    simp [runHandle]
  | succ k ih =>
    intro st p o hp he hb
    have hcond : ¬(st.silenceCount + 1 > silenceThreshold ∧
        st.inputAudioBuffer ≠ []) := by
      intro hx
      have := hx.1
      omega
    simp only [List.replicate_succ, runHandle,
      handleStep_silence_open st p o hp he hcond]
    rw [ih _ p o hp he (by simp; omega)]
    simp only [List.nil_append]
    congr 2
    omega

/-- The read loop never alters the settings snapshot or chat id, and every
utterance-processing effect in its trace is `handleInputAudio` applied to the
handed-over buffer with the session's original snapshot. -/
theorem runHandle_settings (evs : List InEvent) : ∀ st : SessState,
    (runHandle st evs).1.sttSettings = st.sttSettings ∧
    (runHandle st evs).1.llmSettings = st.llmSettings ∧
    (runHandle st evs).1.chatID = st.chatID ∧
    ∀ b sub, Effect.processUtterance b sub ∈ (runHandle st evs).2.1 →
      ∃ o, sub = handleInputAudio b st.chatID st.sttSettings st.llmSettings o := by
  induction evs with
  | nil => intro st; simp [runHandle]
  | cons ev rest ih =>
    intro st
    obtain ⟨h1, h2, h3⟩ := handleStep_preserves st ev
    simp only [runHandle]
    cases hh : handleStep st ev with
    | mk st2 r =>
      cases r with
      | mk effs stop =>
        rw [hh] at h1 h2 h3
        have hstep : ∀ b sub, Effect.processUtterance b sub ∈ effs →
            sub = handleInputAudio b st.chatID st.sttSettings st.llmSettings
              ev.oracle := by
          intro b sub hm
          exact handleStep_utterance st ev b sub (by rw [hh]; exact hm)
        cases stop with
        | true =>
          exact ⟨h1, h2, h3, fun b sub hm => ⟨ev.oracle, hstep b sub hm⟩⟩
        | false =>
          obtain ⟨g1, g2, g3, g4⟩ := ih st2
          refine ⟨g1.trans h1, g2.trans h2, g3.trans h3, ?_⟩
          intro b sub hm
          rcases List.mem_append.mp hm with hm | hm
          · exact ⟨ev.oracle, hstep b sub hm⟩
          · obtain ⟨o', ho⟩ := g4 b sub hm
            rw [h1, h2, h3] at ho
            exact ⟨o', ho⟩

/-- C1 counterexample: on the frame sequence `speech, silence^5` the read loop
has closed no utterance — `silenceCount` has only reached 5, and the close
condition is `silenceCount > silenceThreshold` with threshold 5, so the speech
frame is still sitting in the buffer after the 5th consecutive silence frame,
contradicting the claim that the close happens upon observing the 5th. -/
theorem C1_counterexample_fifth_silence :
    (runHandle (initState sttExample llmExample "c1") c1Events5).2.1 = [] ∧
    (runHandle (initState sttExample llmExample "c1") c1Events5).1.inputAudioBuffer
      = [[(256 : ℚ) / 32768]] ∧
    (runHandle (initState sttExample llmExample "c1") c1Events5).1.silenceCount = 5 := by
  refine ⟨?_, ?_, ?_⟩ <;>
    norm_num [c1Events5, runHandle, handleStep, slinEvent, initState, silenceThreshold,
      pcmToFloat32Array, pcmSamples, toInt16, List.replicate, defaultOracle]

/-- C5 counterexample: a frame on which VAD classification fails leaves the
segmenter state completely unchanged (silence counter still 0), whereas the
same frame classified as silence increments the counter to 1 — so a VAD
failure does not have the same effect on the segmenter state as a silence
frame, contradicting the claim. -/
theorem C5_counterexample_state_unchanged :
    handleStep ⟨[[(256 : ℚ) / 32768]], 0, sttExample, llmExample, "c5"⟩
        (slinEvent [0, 1] VadResult.vadFailure defaultOracle)
      = (⟨[[(256 : ℚ) / 32768]], 0, sttExample, llmExample, "c5"⟩,
         [Effect.logVadError], false) ∧
    handleStep ⟨[[(256 : ℚ) / 32768]], 0, sttExample, llmExample, "c5"⟩
        (slinEvent [0, 1] VadResult.silence defaultOracle)
      = (⟨[[(256 : ℚ) / 32768]], 1, sttExample, llmExample, "c5"⟩, [], false) := by
  refine ⟨?_, ?_⟩ <;>
    norm_num [handleStep, slinEvent, pcmToFloat32Array, pcmSamples, toInt16,
      silenceThreshold, defaultOracle]

/-- C2 fails on the code: under the schedule `c2Schedule` the superseded relay
0 writes a frame to connection 7 after the new relay 1's first frame, so the
two relays' frames are interleaved on the connection.  Relay 0's context is
already cancelled when it writes (second conjunct: after the `start` of relay
1, relay 0 is in the cancelled set), but `websocketSendReceive` checks
cancellation only at the top of its loop, and each relay wraps the connection
in its own fresh `AudioWriter`, so nothing serializes the two relays'
writes. -/
theorem C2_interleaved_write_bug :
    (runSys initSys c2Schedule).connTrace = [(7, 0, 10), (7, 1, 20), (7, 0, 11)] ∧
    (runSys initSys (c2Schedule.take 5)).mgr.cancelled = [0] := by
  decide

/-- C3 fails on the code: `wsCancel` is a single process-wide handle, so
starting a relay for connection 2 cancels the relay still running for
connection 1 — relays of two different calls observe each other's
cancellation. -/
theorem C3_cross_call_cancellation_bug :
    (runSys initSys [RAction.start 0 1 [10], RAction.start 1 2 [20]]).mgr.cancelled
      = [0] ∧
    ((runSys initSys [RAction.start 0 1 [10], RAction.start 1 2 [20]]).tasks.map
        (fun t => (t.rid, t.connId))) = [(0, 1), (1, 2)] := by
  decide

/-- C4 fails on the code: `handleInputAudio` computes the duration with sample
rate 16000 even though the stream is 8 kHz (src/main.go's own comment on
`slinChunkSize`: 8000Hz * 20ms * 2 bytes), so a 4000-sample utterance — 0.5 s
of real audio, above the 0.40 s gate — is computed as 0.25 s and rejected
without being submitted to the transcription service. -/
theorem C4_sample_rate_bug :
    calculateAudioLength c4Buffer 16000 = 1/4 ∧
    calculateAudioLength c4Buffer 8000 = 1/2 ∧
    ¬ ((1 : ℚ)/2 < 2/5) ∧
    handleInputAudio c4Buffer "c4" sttExample llmExample okOracle
      = [UttEffect.logSkipShort] := by
  refine ⟨?_, ?_, ?_, ?_⟩ <;>
    norm_num [handleInputAudio, calculateAudioLength, c4Buffer, okOracle,
      List.map_replicate, List.sum_replicate]

/-- Sequencing two non-hangup runs of the read loop. -/
theorem runHandle_seq {st : SessState} {l1 l2 : List InEvent} {s1 s2 : SessState}
    {e1 e2 : List Effect} (h1 : runHandle st l1 = (s1, e1, false))
    (h2 : runHandle s1 l2 = (s2, e2, false)) :
    runHandle st (l1 ++ l2) = (s2, e1 ++ e2, false) := by
  rw [runHandle_append, h1]
  simp [h2]

/-- C1 amended: on a frame sequence `speech*, silence^6` (nonempty speech, all
frames valid audio payloads) the read loop closes exactly one utterance,
containing exactly the converted speech frames in order, and it does so on
the 6th consecutive silence frame — after only 5 consecutive silence frames
the utterance is still open (second conjunct) — because the code's close
condition is `silenceCount > silenceThreshold` with the counter reaching 6;
a speech frame arriving afterwards immediately starts a new utterance (third
conjunct). -/
theorem C1_amended_close_after_sixth (payloads : List (List ℕ)) (pSil : List ℕ)
    (stt : STTSettings) (llm : LLMSettings) (cid : String) (o : UttOracle)
    (hne : payloads ≠ [])
    (hval : ∀ p ∈ payloads, p ≠ [] ∧ p.length % 2 = 0)
    (hs1 : pSil ≠ []) (hs2 : pSil.length % 2 = 0) :
    runHandle (initState stt llm cid)
        (payloads.map (fun p => slinEvent p VadResult.speech o) ++
          List.replicate 6 (slinEvent pSil VadResult.silence o)) =
      (⟨[], 6, stt, llm, cid⟩,
       [Effect.processUtterance (payloads.map pcmSamples)
          (handleInputAudio (payloads.map pcmSamples) cid stt llm o)], false) ∧
    runHandle (initState stt llm cid)
        (payloads.map (fun p => slinEvent p VadResult.speech o) ++
          List.replicate 5 (slinEvent pSil VadResult.silence o)) =
      (⟨payloads.map pcmSamples, 5, stt, llm, cid⟩, [], false) ∧
    ∀ q, q ≠ [] → q.length % 2 = 0 →
      runHandle (initState stt llm cid)
          (payloads.map (fun p => slinEvent p VadResult.speech o) ++
            List.replicate 6 (slinEvent pSil VadResult.silence o) ++
            [slinEvent q VadResult.speech o]) =
        (⟨[pcmSamples q], 0, stt, llm, cid⟩,
         [Effect.processUtterance (payloads.map pcmSamples)
            (handleInputAudio (payloads.map pcmSamples) cid stt llm o)], false) := by
  have hbuf : payloads.map pcmSamples ≠ [] := by
    simpa using hne
  have hA : runHandle (initState stt llm cid)
      (payloads.map (fun p => slinEvent p VadResult.speech o)) =
      (⟨payloads.map pcmSamples, 0, stt, llm, cid⟩, [], false) := by
    rw [runHandle_speech payloads (initState stt llm cid) o hval]
    simp [initState]
  have h5 : runHandle (⟨payloads.map pcmSamples, 0, stt, llm, cid⟩ : SessState)
      (List.replicate 5 (slinEvent pSil VadResult.silence o)) =
      (⟨payloads.map pcmSamples, 5, stt, llm, cid⟩, [], false) := by
    rw [runHandle_silence_under 5 _ pSil o hs1 hs2 (by simp [silenceThreshold])]
  have h6 : runHandle (⟨payloads.map pcmSamples, 5, stt, llm, cid⟩ : SessState)
      [slinEvent pSil VadResult.silence o] =
      (⟨[], 6, stt, llm, cid⟩,
       [Effect.processUtterance (payloads.map pcmSamples)
          (handleInputAudio (payloads.map pcmSamples) cid stt llm o)], false) := by
    simp only [runHandle,
      handleStep_silence_close ⟨payloads.map pcmSamples, 5, stt, llm, cid⟩ pSil o
        hs1 hs2 (by simp [silenceThreshold]) hbuf]
    simp
  have e6 : List.replicate 6 (slinEvent pSil VadResult.silence o) =
      List.replicate 5 (slinEvent pSil VadResult.silence o) ++
        [slinEvent pSil VadResult.silence o] := by
    rw [← List.replicate_succ']
  refine ⟨?_, runHandle_seq hA h5, ?_⟩
  · rw [e6, ← List.append_assoc]
    exact runHandle_seq (runHandle_seq hA h5) h6
  · intro q hq1 hq2
    have hq : runHandle (⟨[], 6, stt, llm, cid⟩ : SessState)
        [slinEvent q VadResult.speech o] =
        (⟨[pcmSamples q], 0, stt, llm, cid⟩, [], false) := by
      simp only [runHandle,
        handleStep_speech ⟨[], 6, stt, llm, cid⟩ q o hq1 hq2]
      simp
    rw [e6, ← List.append_assoc]
    exact runHandle_seq (runHandle_seq (runHandle_seq hA h5) h6) hq

/-- Witness for the amended C1 at a concrete session: one speech frame
`[0, 1]`, six silence frames `[0, 0]`, then another speech frame `[2, 3]`. -/
theorem C1_amended_close_after_sixth_witness :
    runHandle (initState sttExample llmExample "c1w")
        ([[0, 1]].map (fun p => slinEvent p VadResult.speech defaultOracle) ++
          List.replicate 6 (slinEvent [0, 0] VadResult.silence defaultOracle)) =
      (⟨[], 6, sttExample, llmExample, "c1w"⟩,
       [Effect.processUtterance ([[0, 1]].map pcmSamples)
          (handleInputAudio ([[0, 1]].map pcmSamples) "c1w" sttExample llmExample
            defaultOracle)], false) ∧
    runHandle (initState sttExample llmExample "c1w")
        ([[0, 1]].map (fun p => slinEvent p VadResult.speech defaultOracle) ++
          List.replicate 6 (slinEvent [0, 0] VadResult.silence defaultOracle) ++
          [slinEvent [2, 3] VadResult.speech defaultOracle]) =
      (⟨[pcmSamples [2, 3]], 0, sttExample, llmExample, "c1w"⟩,
       [Effect.processUtterance ([[0, 1]].map pcmSamples)
          (handleInputAudio ([[0, 1]].map pcmSamples) "c1w" sttExample llmExample
            defaultOracle)], false) := by
  have h := C1_amended_close_after_sixth [[0, 1]] [0, 0] sttExample llmExample
    "c1w" defaultOracle (by simp)
    (by intro p hp; simp only [List.mem_singleton] at hp; subst hp
        exact ⟨by simp, rfl⟩)
    (by simp) rfl
  exact ⟨h.1, h.2.2 [2, 3] (by simp) rfl⟩

/-- C5 amended: a valid audio frame on which VAD classification fails is
logged and skipped entirely — the utterance buffer and the silence counter
are both left unchanged (the code only logs and falls through), and the read
loop continues with the next frame. -/
theorem C5_amended_vad_failure_skips (st : SessState) (p : List ℕ) (o : UttOracle)
    (hp : p ≠ []) (he : p.length % 2 = 0) :
    handleStep st (slinEvent p VadResult.vadFailure o) =
      (st, [Effect.logVadError], false) := by
  have hlen : ¬ p.length < 1 := by
    cases p with
    | nil => exact absurd rfl hp
    | cons a as => simp
  have hpcm : pcmToFloat32Array p = Except.ok (pcmSamples p) := by
    unfold pcmToFloat32Array
    rw [if_neg (by omega)]
  simp [handleStep, slinEvent, hlen, hpcm]

/-- Witness for the amended C5 at a concrete state and frame. -/
theorem C5_amended_vad_failure_skips_witness :
    handleStep (initState sttExample llmExample "c5w")
        (slinEvent [0, 1] VadResult.vadFailure defaultOracle) =
      (initState sttExample llmExample "c5w", [Effect.logVadError], false) :=
  C5_amended_vad_failure_skips (initState sttExample llmExample "c5w") [0, 1]
    defaultOracle (by simp) rfl

/-- C6: PCM-to-float conversion rejects every odd-length byte sequence with
the format error, and on a sequence of length `2 * n` succeeds with `n`
samples whose `i`-th entry is the `i`-th signed 16-bit little-endian sample
divided by 32768. -/
theorem C6_pcm_format (pcmData : List ℕ) :
    (pcmData.length % 2 = 1 →
      pcmToFloat32Array pcmData = Except.error "pcm data length must be even") ∧
    ∀ n, pcmData.length = 2 * n →
      ∃ samples, pcmToFloat32Array pcmData = Except.ok samples ∧
        samples.length = n ∧
        ∀ i, i < n → samples[i]? =
          some ((toInt16 (pcmData.getD (2 * i) 0 + 256 * pcmData.getD (2 * i + 1) 0) : ℚ)
            / 32768) := by
  constructor
  · intro h
    unfold pcmToFloat32Array
    rw [if_pos (by omega)]
  · intro n hn
    refine ⟨pcmSamples pcmData, ?_, (pcmSamples_spec n pcmData hn).1,
      (pcmSamples_spec n pcmData hn).2⟩
    unfold pcmToFloat32Array
    rw [if_neg (by omega)]

/-- Witness for C6: the odd-length sequence `[42]` is rejected, and the
4-byte sequence `[0, 128, 255, 255]` converts to two samples. -/
theorem C6_pcm_format_witness :
    pcmToFloat32Array [42] = Except.error "pcm data length must be even" ∧
    ∃ samples, pcmToFloat32Array [0, 128, 255, 255] = Except.ok samples ∧
      samples.length = 2 ∧
      ∀ i, i < 2 → samples[i]? =
        some ((toInt16 ([0, 128, 255, 255].getD (2 * i) 0
            + 256 * [0, 128, 255, 255].getD (2 * i + 1) 0) : ℚ) / 32768) :=
  ⟨(C6_pcm_format [42]).1 rfl, (C6_pcm_format [0, 128, 255, 255]).2 2 rfl⟩

/-- C10: an audio frame whose payload is empty (content length below 1) is
logged and skipped: the session state — buffer and silence counter included —
is unchanged, the result does not depend on any VAD classification or PCM
conversion (the VAD verdict `v` is arbitrary and unused), and the read loop
continues. -/
theorem C10_empty_audio_skipped (st : SessState) (v : VadResult) (o : UttOracle) :
    handleStep st ⟨⟨MsgKind.kindSlin, []⟩, v, o⟩ = (st, [Effect.logNoAudio], false) :=
  rfl

/-- C7: when the transcription service returns a transcript that exactly
matches a denylisted caption, utterance processing stops there — the trace is
either just the short-audio rejection (when the duration gate already fired)
or the transcription submission followed by the exclusion log: in both cases
no chat-log message is appended, the language model is never invoked, and no
playback relay is started. -/
theorem C7_denylist_stops_processing (buffer : List (List ℚ)) (cid : String)
    (stt : STTSettings) (llm : LLMSettings) (o : UttOracle) (t : String)
    (ht : o.transcription = Except.ok t) (hex : t ∈ excludedWords) :
    handleInputAudio buffer cid stt llm o = [UttEffect.logSkipShort] ∨
    handleInputAudio buffer cid stt llm o =
      [UttEffect.submitTranscription buffer.flatten { stt with language := "ru" },
       UttEffect.logExcluded] := by
  unfold handleInputAudio
  rw [ht]
  simp only []
  split
  · exact Or.inl rfl
  · right
    simp [hex]

/-- Witness for C7: a denylisted transcript on a too-short utterance. -/
theorem C7_denylist_stops_processing_witness :
    handleInputAudio [] "c7" sttExample llmExample denyOracle
        = [UttEffect.logSkipShort] ∨
    handleInputAudio [] "c7" sttExample llmExample denyOracle =
      [UttEffect.submitTranscription ([] : List (List ℚ)).flatten
         { sttExample with language := "ru" },
       UttEffect.logExcluded] :=
  C7_denylist_stops_processing [] "c7" sttExample llmExample denyOracle
    "Продолжение следует..." rfl (by simp [excludedWords])

/-- C8: a hangup frame, arriving at any point of the read loop after any
prefix of non-hangup frames, terminates the session at once: the partially
accumulated state is left exactly as the prefix produced it, the only new
effect is the hangup log — in particular no `processUtterance` is emitted for
the partial buffer — and the remaining input is never read. -/
theorem C8_hangup_no_partial_processing (st : SessState) (pre rest : List InEvent)
    (o : UttOracle) (hpre : ∀ ev ∈ pre, ev.msg.kind ≠ MsgKind.kindHangup) :
    runHandle st (pre ++ hangupEvent o :: rest) =
      ((runHandle st pre).1, (runHandle st pre).2.1 ++ [Effect.logHangup], true) := by
  induction pre generalizing st with
  | nil => simp [runHandle, hangupEvent, handleStep]
  | cons ev pre ih =>
    have hev := hpre ev (List.mem_cons_self ev pre)
    have hst := handleStep_stopped st ev hev
    simp only [List.cons_append, runHandle]
    cases hh : handleStep st ev with
    | mk st2 r =>
      cases r with
      | mk effs stop =>
        rw [hh] at hst
        simp only [] at hst
        subst hst
        simp only [List.append_eq]
        rw [ih st2 (fun e he => hpre e (List.mem_cons_of_mem ev he))]
        simp [List.append_assoc]

/-- Witness for C8: hangup right after one speech frame; the speech frame is
still in the buffer and no utterance is processed. -/
theorem C8_hangup_no_partial_processing_witness :
    runHandle (initState sttExample llmExample "c8")
        ([slinEvent [0, 1] VadResult.speech defaultOracle] ++
          hangupEvent defaultOracle :: [hangupEvent defaultOracle]) =
      ((runHandle (initState sttExample llmExample "c8")
          [slinEvent [0, 1] VadResult.speech defaultOracle]).1,
       (runHandle (initState sttExample llmExample "c8")
          [slinEvent [0, 1] VadResult.speech defaultOracle]).2.1 ++
         [Effect.logHangup], true) :=
  C8_hangup_no_partial_processing (initState sttExample llmExample "c8")
    [slinEvent [0, 1] VadResult.speech defaultOracle] [hangupEvent defaultOracle]
    defaultOracle
    (by intro e he
        simp only [List.mem_singleton] at he
        subst he
        simp [slinEvent])

/-- Every transcription-submission effect of `handleInputAudio` carries the
received settings with only the language overridden to "ru". -/
theorem handleInputAudio_submit_settings (b : List (List ℚ)) (cid : String)
    (stt : STTSettings) (llm : LLMSettings) (o : UttOracle) (a : List ℚ)
    (s : STTSettings)
    (h : UttEffect.submitTranscription a s ∈ handleInputAudio b cid stt llm o) :
    s = { stt with language := "ru" } := by
  obtain ⟨tr, su, cr, sa⟩ := o
  unfold handleInputAudio at h
  simp only [] at h
  by_cases hgate : calculateAudioLength b 16000 < 2/5
  · rw [if_pos hgate] at h
    simp at h
  · rw [if_neg hgate] at h
    simp only [List.mem_cons] at h
    rcases h with h | h
    · injection h with h1 h2
    · cases tr with
      | error e => simp at h
      | ok t =>
        simp only [] at h
        by_cases hexc : t ∈ excludedWords
        · rw [if_pos hexc] at h
          simp at h
        · rw [if_neg hexc] at h
          simp only [List.mem_cons] at h
          rcases h with h | h
          · simp at h
          · cases su with
            | error e => simp at h
            | ok u =>
              simp only [List.mem_cons] at h
              rcases h with h | h
              · simp at h
              · cases cr with
                | error e => simp at h
                | ok reply =>
                  simp only [List.mem_cons] at h
                  rcases h with h | h
                  · simp at h
                  · cases sa with
                    | error e => simp at h
                    | ok v => simp at h

/-- C9: the settings snapshot fetched at session start is immutable for the
session's lifetime: after any run of the read loop the session-held STT and
LLM settings are the original ones, every utterance was processed by
`handleInputAudio` applied to those original settings, and the forced
transcription-language override ("ru") only affects the settings copy inside
the transcription request — so every subsequent utterance of the session sees
the originally fetched settings. -/
theorem C9_settings_snapshot (st : SessState) (evs : List InEvent) :
    (runHandle st evs).1.sttSettings = st.sttSettings ∧
    (runHandle st evs).1.llmSettings = st.llmSettings ∧
    (∀ b sub, Effect.processUtterance b sub ∈ (runHandle st evs).2.1 →
      ∃ o, sub = handleInputAudio b st.chatID st.sttSettings st.llmSettings o) ∧
    ∀ b o a s, UttEffect.submitTranscription a s ∈
        handleInputAudio b st.chatID st.sttSettings st.llmSettings o →
      s = { st.sttSettings with language := "ru" } := by
  obtain ⟨h1, h2, h3, h4⟩ := runHandle_settings evs st
  exact ⟨h1, h2, h4,
    fun b o a s h =>
      handleInputAudio_submit_settings b st.chatID st.sttSettings st.llmSettings
        o a s h⟩

/-- Witness for C9 at a concrete session: a closed (here: too-short) utterance
is processed with the original snapshot, and a gate-passing utterance's
transcription request carries the snapshot with only the language forced to
"ru", while the session still holds the original settings. -/
theorem C9_settings_snapshot_witness :
    (runHandle (initState sttExample llmExample "c9") c9Events).1.sttSettings
        = sttExample ∧
    (runHandle (initState sttExample llmExample "c9") c9Events).1.llmSettings
        = llmExample ∧
    Effect.processUtterance [[(256 : ℚ) / 32768]] [UttEffect.logSkipShort] ∈
        (runHandle (initState sttExample llmExample "c9") c9Events).2.1 ∧
    (∃ o, [UttEffect.logSkipShort] =
        handleInputAudio [[(256 : ℚ) / 32768]] "c9" sttExample llmExample o) ∧
    UttEffect.submitTranscription ([List.replicate 6400 (0 : ℚ)].flatten)
        { sttExample with language := "ru" } ∈
      handleInputAudio [List.replicate 6400 (0 : ℚ)] "c9" sttExample llmExample
        okOracle ∧
    ({ sttExample with language := "ru" } : STTSettings) =
      { sttExample with language := "ru" } := by
  have m1 : Effect.processUtterance [[(256 : ℚ) / 32768]] [UttEffect.logSkipShort] ∈
      (runHandle (initState sttExample llmExample "c9") c9Events).2.1 := by
    have e1 : (runHandle (initState sttExample llmExample "c9") c9Events).2.1 =
        [Effect.processUtterance [[(256 : ℚ) / 32768]] [UttEffect.logSkipShort]] := by
      norm_num [c9Events, runHandle, handleStep, slinEvent, initState,
        silenceThreshold, pcmToFloat32Array, pcmSamples, toInt16, List.replicate,
        defaultOracle, handleInputAudio, calculateAudioLength]
    rw [e1]
    exact List.mem_singleton_self _
  have hgate : ¬ calculateAudioLength [List.replicate 6400 (0 : ℚ)] 16000 < 2/5 := by
    norm_num [calculateAudioLength]
  have m2 : UttEffect.submitTranscription ([List.replicate 6400 (0 : ℚ)].flatten)
      { sttExample with language := "ru" } ∈
      handleInputAudio [List.replicate 6400 (0 : ℚ)] "c9" sttExample llmExample
        okOracle := by
    simp only [handleInputAudio]
    rw [if_neg hgate]
    exact List.mem_cons_self _ _
  have h := C9_settings_snapshot (initState sttExample llmExample "c9") c9Events
  exact ⟨h.1, h.2.1, m1, h.2.2.1 _ _ m1, m2, h.2.2.2 _ okOracle _ _ m2⟩

end Bridge
